import Mathlib

/-!
Shallow embedding of the `little-origin` name-curation pipeline.

Covered source files:
* `packages/name-data-cleaner/src/name_data_cleaner/validators.py`
* `packages/name-data-cleaner/src/name_data_cleaner/blacklist.py`
* `packages/name-data-cleaner/src/name_data_cleaner/cleaner.py` (row loop of
  `DatasetCleaner.clean_country`)
* `packages/name-data-generator/src/name_data_generator/generator.py`
  (`DatasetGenerator.is_valid_first_name`, `DatasetGenerator.fetch_names_until_sufficient`)

Modelling conventions:
* Python strings are Lean `String`s; `len` is `String.length` (codepoints in both).
* Python case operations are modelled exactly on ASCII and on the Latin-1
  letter block (the only cased characters occurring in the repository source
  literals and tests); other codepoints are left unchanged.
* The Unicode classes `\w` and `\p{L}` are modelled as
  ASCII-alphanumeric/underscore plus "any codepoint at or above U+0080"; this
  is exact on ASCII.  No theorem below depends on the non-ASCII boundary of
  these classes.
* Python `float` arithmetic (the yield-rate heuristic of the sampler) is modelled
  with exact rationals.  The yield rate only influences batch sizing, which
  every theorem below uses only through the hard clamp `max 200 (min _ maxStep)`,
  so no statement depends on float rounding.
* Diagnostic `details` strings are reproduced where they are plain
  concatenations; list-slicing reprs inside one diagnostic are abbreviated.
  No claim inspects `details`.
-/

/-! ## Character-level helpers (Python string semantics) -/

/-- The apostrophe character (codepoint 39). -/
def apoChar : Char := Char.ofNat 39

/-- Python `str.lower` on one character, exact on ASCII and Latin-1 letters. -/
def pyLowerChar (c : Char) : Char :=
  if 'A' ≤ c && c ≤ 'Z' then Char.ofNat (c.toNat + 32)
  else if 0xC0 ≤ c.toNat && c.toNat ≤ 0xDE && c.toNat ≠ 0xD7 then Char.ofNat (c.toNat + 32)
  else c

/-- Python `str.upper` on one character, exact on ASCII and Latin-1 letters
(`ß`/`ÿ`, which Python expands or maps outside Latin-1, do not occur in the
inputs the embedding is evaluated on). -/
def pyUpperChar (c : Char) : Char :=
  if 'a' ≤ c && c ≤ 'z' then Char.ofNat (c.toNat - 32)
  else if 0xE0 ≤ c.toNat && c.toNat ≤ 0xFE && c.toNat ≠ 0xF7 then Char.ofNat (c.toNat - 32)
  else c

def pyLower (s : String) : String := String.mk (s.toList.map pyLowerChar)

def pyUpper (s : String) : String := String.mk (s.toList.map pyUpperChar)

/-- A cased character (ASCII or Latin-1 letters). -/
def pyCharIsUpper (c : Char) : Bool :=
  ('A' ≤ c && c ≤ 'Z') || (0xC0 ≤ c.toNat && c.toNat ≤ 0xDE && c.toNat ≠ 0xD7)

def pyCharIsLower (c : Char) : Bool :=
  ('a' ≤ c && c ≤ 'z') || (0xDF ≤ c.toNat && c.toNat ≤ 0xFF && c.toNat ≠ 0xF7)

def pyCharIsCased (c : Char) : Bool := pyCharIsUpper c || pyCharIsLower c

/-- Python `str.isupper`: at least one cased character, and every cased
character is uppercase. -/
def pyIsUpper (s : String) : Bool :=
  s.toList.any pyCharIsCased && s.toList.all (fun c => !pyCharIsCased c || pyCharIsUpper c)

/-- Python `str.strip()` (whitespace model: ASCII whitespace; the data
contains no exotic Unicode whitespace). -/
def pyStrip (s : String) : String :=
  String.mk (((s.toList.dropWhile Char.isWhitespace).reverse.dropWhile
    Char.isWhitespace).reverse)

/-- Approximation of the Unicode letter class `\p{L}`: exact on ASCII,
over-approximated to "any non-ASCII codepoint" above U+0080. -/
def isLetterPy (c : Char) : Bool := c.isAlpha || 0x80 ≤ c.toNat

/-- Approximation of the regex class `\w` (with `re.UNICODE`). -/
def isWordPy (c : Char) : Bool := c.isAlphanum || c = '_' || 0x80 ≤ c.toNat

/-- `pat` occurs as a contiguous substring of `l` (Python `pat in s`). -/
def containsList (pat : List Char) : List Char → Bool
  | [] => pat.isEmpty
  | c :: rest => pat.isPrefixOf (c :: rest) || containsList pat rest

def containsSub (pat s : String) : Bool := containsList pat.toList s.toList

/-- Python `str.endswith`. -/
def endsWithList (suf l : List Char) : Bool := suf.reverse.isPrefixOf l.reverse

def endsWithStr (suf s : String) : Bool := endsWithList suf.toList s.toList

/-- Split a character list at every separator character (keeping empty
pieces, like Python `str.split(sep)` with an explicit separator). -/
def splitChars (p : Char → Bool) : List Char → List (List Char)
  | [] => [[]]
  | c :: rest =>
    if p c then [] :: splitChars p rest
    else
      match splitChars p rest with
      | g :: gs => (c :: g) :: gs
      | [] => [[c]]

/-- Python `str.split()` (split on whitespace runs, dropping empty parts). -/
def pySplitWhitespace (s : String) : List String :=
  ((splitChars Char.isWhitespace s.toList).map String.mk).filter (fun p => p ≠ "")

/-! ## `blacklist.py` -/

/-- `JOKE_NAMES` (the second entry is mojibake in the source and is kept
verbatim). -/
def JOKE_NAMES : List String := ["bredlbroad", "gsichtsbÃ¤ichl"]

def is_joke_name (name : String) : Bool := JOKE_NAMES.contains (pyLower name)

/-- Regex `^.$` on the lowered name: exactly one character (regex `.` does not
match a newline). -/
def suspiciousSingle (l : List Char) : Bool :=
  match l with
  | [c] => c ≠ '\n'
  | _ => false

/-- Regex `^(.)\1{2,}$`: one character repeated at least three times. -/
def suspiciousRepeat (l : List Char) : Bool :=
  match l with
  | c :: rest => c ≠ '\n' && decide (3 ≤ l.length) && rest.all (fun d => d = c)
  | [] => false

/-- Run-length decomposition used to decide the regex `^(.)\1+(.)\2+$`:
the string must be a run of one character (length ≥ 2) followed by a run of a
second character (length ≥ 2); when both runs use the same character any split
works, i.e. the whole string is one character repeated at least four times. -/
def firstRunLength (c : Char) : List Char → Nat
  | [] => 0
  | d :: rest => if d = c then firstRunLength c rest + 1 else 0

def suspiciousTwoRuns (l : List Char) : Bool :=
  match l with
  | c :: _ =>
    let a := firstRunLength c l
    let rest := l.drop a
    (c ≠ '\n') &&
    match rest with
    | [] => decide (4 ≤ a)
    | d :: _ =>
      d ≠ '\n' && decide (2 ≤ a) && decide (2 ≤ rest.length) &&
        rest.all (fun e => e = d)
  | [] => false

def consonantChars : List Char :=
  ['b','c','d','f','g','h','j','k','l','m','n','p','q','r','s','t','v','w','x','y','z',
   'B','C','D','F','G','H','J','K','L','M','N','P','Q','R','S','T','V','W','X','Y','Z']

/-- Regex `^[bcdf...XYZ]{4,}$`. -/
def suspiciousConsonants (l : List Char) : Bool :=
  decide (4 ≤ l.length) && l.all (fun c => consonantChars.contains c)

/-- `is_suspicious_pattern` from `blacklist.py` (all four patterns are applied
to `name.lower()`; `re.match` anchors at the start and each pattern ends in
`$`, so each is a full match). -/
def is_suspicious_pattern (name : String) : Bool :=
  let l := (pyLower name).toList
  suspiciousSingle l || suspiciousRepeat l || suspiciousTwoRuns l || suspiciousConsonants l

def NOT_FIRST_NAMES : List String := ["unknown", "none", "anonymous", "test", "dummy"]

def is_not_first_name (name : String) : Bool := NOT_FIRST_NAMES.contains (pyLower name)

/-- `COUNTRY_SPECIFIC`: every per-country set in the source is empty. -/
def COUNTRY_SPECIFIC : List (String × List String) :=
  [("US", []), ("DE", []), ("GB", []), ("FR", []), ("IT", []), ("ES", []), ("IE", [])]

def is_country_blacklisted (name country : String) : Bool :=
  let bl := ((COUNTRY_SPECIFIC.lookup (pyUpper country)).getD [])
  bl.contains (pyLower name)

/-! ## Kernel-computable rational arithmetic

The Mathlib field operations on `ℚ` are compiled externs whose applications the
kernel does not unfold, so the embedding uses the following `mkRat`-based
operations.  The agreement lemmas right below each definition show they are
the ordinary rational operations. -/

def ratAdd (a b : ℚ) : ℚ := mkRat (a.num * b.den + b.num * a.den) (a.den * b.den)

def ratSub (a b : ℚ) : ℚ := mkRat (a.num * b.den - b.num * a.den) (a.den * b.den)

def ratMul (a b : ℚ) : ℚ := mkRat (a.num * b.num) (a.den * b.den)

def ratDiv (a b : ℚ) : ℚ :=
  if 0 ≤ b.num then mkRat (a.num * b.den) (a.den * b.num.toNat)
  else mkRat (-(a.num * b.den)) (a.den * (-b.num).toNat)

/-- Python `max` on two numbers (returns the first argument on ties). -/
def ratMax (a b : ℚ) : ℚ := if b ≤ a then a else b

/-! ## `validators.py` -/

/-- `ValidationError`: a reason plus diagnostic details. -/
structure ValidationError where
  reason : String
  details : String
  deriving DecidableEq, Repr

/-- `ValidationError.__bool__` — the source returns `False` unconditionally. -/
def validationErrorBool (_ : ValidationError) : Bool := false

/-- Python truthiness of an `Optional[ValidationError]`: `None` is falsy and a
`ValidationError` instance delegates to `__bool__`. -/
def errTruthy : Option ValidationError → Bool
  | none => false
  | some e => validationErrorBool e

/-- The `NON_LATIN_PATTERNS` Unicode ranges (inclusive codepoint bounds). -/
def nonLatinRanges : List (Nat × Nat) :=
  [(0x600, 0x6FF),   -- Arabic
   (0x400, 0x4FF),   -- Cyrillic
   (0x370, 0x3FF),   -- Greek
   (0x4E00, 0x9FFF), -- Chinese
   (0x3040, 0x309F), (0x30A0, 0x30FF), -- Japanese
   (0xAC00, 0xD7AF), -- Korean
   (0xE00, 0xE7F),   -- Thai
   (0x590, 0x5FF),   -- Hebrew
   (0x900, 0x97F)]   -- Devanagari

def isNonLatinChar (c : Char) : Bool :=
  nonLatinRanges.any (fun r => r.1 ≤ c.toNat && c.toNat ≤ r.2)

/-- Countries that have an entry in `COUNTRY_PATTERNS` (each maps to the same
pattern: one or more Unicode letters, apostrophes, hyphens, periods or spaces,
anchored at both ends). -/
def COUNTRY_PATTERN_KEYS : List String := ["US", "GB", "FR", "DE", "IT", "ES", "IE"]

/-- Full match against the shared `COUNTRY_PATTERNS` regex: a nonempty string
of Unicode letters, apostrophes, hyphens, periods and spaces. -/
def countryCharsetMatch (s : String) : Bool :=
  let l := s.toList
  !l.isEmpty && l.all (fun c => isLetterPy c || c = apoChar || c = '-' || c = '.' || c = ' ')

/-- `validate_character_set`. -/
def validate_character_set (name country : String) : Option ValidationError :=
  if name.toList.any isNonLatinChar then
    some ⟨"non_latin_script", "Contains non-Latin characters: " ++ name⟩
  else if COUNTRY_PATTERN_KEYS.contains (pyUpper country) && !countryCharsetMatch name then
    some ⟨"invalid_characters", "Invalid characters for " ++ country ++ ": " ++ name⟩
  else
    none

/-- One `VALID_NAME_PATTERNS` part: an uppercase-class character followed by
lowercase-class characters. -/
def formatPartMatch (upper lower : Char → Bool) (part : List Char) : Bool :=
  match part with
  | [] => false
  | c :: rest => upper c && rest.all lower

/-- Full match against `^U L*(?: U L*)*$`: one or more parts separated by
single spaces (the character classes contain no space). -/
def formatMatch (upper lower : Char → Bool) (s : String) : Bool :=
  let parts := splitChars (fun c => c = ' ') s.toList
  !parts.isEmpty && parts.all (formatPartMatch upper lower)

def inRange (c : Char) (lo hi : Nat) : Bool := lo ≤ c.toNat && c.toNat ≤ hi

/-- `[A-ZÀ-ÖØ-öø-ÿ]` (US/GB pattern uppercase class). -/
def upperUS (c : Char) : Bool :=
  inRange c 65 90 || inRange c 0xC0 0xD6 || inRange c 0xD8 0xF6 || inRange c 0xF8 0xFF

/-- The US/GB lowercase class: `a-z`, `à-ö`, `ø-ÿ`, apostrophe, hyphen, period. -/
def lowerUS (c : Char) : Bool :=
  inRange c 97 122 || inRange c 0xE0 0xF6 || inRange c 0xF8 0xFF ||
    c = apoChar || c = '-' || c = '.'

def upperDE (c : Char) : Bool :=
  inRange c 65 90 || c = 'Ä' || c = 'Ö' || c = 'Ü'

def lowerDE (c : Char) : Bool :=
  inRange c 97 122 || c = 'ä' || c = 'ö' || c = 'ü' || c = 'ß' ||
    c = apoChar || c = '-' || c = '.'

def upperFR (c : Char) : Bool :=
  inRange c 65 90 || ['À','Â','Æ','Ç','É','È','Ê','Ë','Ï','Î','Ô','Ù','Û','Ü','Ÿ'].contains c

def lowerFR (c : Char) : Bool :=
  inRange c 97 122 || ['à','â','æ','ç','é','è','ê','ë','ï','î','ô','ù','û','ü','ÿ'].contains c ||
    c = apoChar || c = '-' || c = '.'

def upperIT (c : Char) : Bool :=
  inRange c 65 90 || ['À','È','É','Ì','Ò','Ù'].contains c

def lowerIT (c : Char) : Bool :=
  inRange c 97 122 || ['à','è','é','ì','ò','ù'].contains c || c = apoChar || c = '-' || c = '.'

def upperES (c : Char) : Bool :=
  inRange c 65 90 || ['Á','É','Í','Ó','Ú','Ñ'].contains c

def lowerES (c : Char) : Bool :=
  inRange c 97 122 || ['á','é','í','ó','ú','ñ','ü'].contains c || c = apoChar || c = '-' || c = '.'

def upperIE (c : Char) : Bool :=
  inRange c 65 90 || ['Á','É','Í','Ó','Ú'].contains c

def lowerIE (c : Char) : Bool :=
  inRange c 97 122 || ['á','é','í','ó','ú'].contains c || c = apoChar || c = '-' || c = '.'

/-- `VALID_NAME_PATTERNS.get(country.upper())`, as a pair of character classes. -/
def validNamePattern (countryUpper : String) : Option ((Char → Bool) × (Char → Bool)) :=
  if countryUpper = "US" then some (upperUS, lowerUS)
  else if countryUpper = "GB" then some (upperUS, lowerUS)
  else if countryUpper = "DE" then some (upperDE, lowerDE)
  else if countryUpper = "FR" then some (upperFR, lowerFR)
  else if countryUpper = "IT" then some (upperIT, lowerIT)
  else if countryUpper = "ES" then some (upperES, lowerES)
  else if countryUpper = "IE" then some (upperIE, lowerIE)
  else none

/-- `validate_name_format`. -/
def validate_name_format (name country : String) : Option ValidationError :=
  match validNamePattern (pyUpper country) with
  | none => none
  | some (u, l) =>
    if !formatMatch u l name then
      some ⟨"invalid_format", "Invalid name format for " ++ country ++ ": " ++ name⟩
    else
      none

/-- `validate_length`. -/
def validate_length (name : String) (min_length max_length : Nat) : Option ValidationError :=
  if name.length < min_length then
    some ⟨"too_short", "Name too short (" ++ toString name.length ++ " < " ++
      toString min_length ++ "): " ++ name⟩
  else if max_length < name.length then
    some ⟨"too_long", "Name too long (" ++ toString name.length ++ " > " ++
      toString max_length ++ "): " ++ name⟩
  else
    none

/-- `validate_double_names`. -/
def validate_double_names (name : String) : Option ValidationError :=
  if !(name.toList.contains ' ') then none
  else
    let parts := pySplitWhitespace name
    if 2 < parts.length then
      some ⟨"too_many_parts", "Name has too many parts: " ++ name⟩
    else
      match parts.find? (fun p => !(p.toList.headD ' ' |> pyCharIsUpper)) with
      | some p => some ⟨"invalid_capitalization", "Part not capitalized: " ++ p ++ " in " ++ name⟩
      | none => none

/-! ## `validate_with_names_dataset` and `validate_all`

The `names_dataset` collaborator is modelled as a search function returning the
record shape the source inspects: an optional result dict whose `first_name`
key may be absent (`none`), present-but-`None` (`some none`), or populated. -/

structure FirstNameData where
  /-- Keys of the per-country presence dict (the `country` entry of `first_name`). -/
  countryKeys : List String
  /-- The `gender` entry of `first_name`: normalized gender → probability. -/
  genderProbs : List (String × ℚ)
  /-- The `rank` entry of `first_name`: country code → rank. -/
  rankByCountry : List (String × Int)

structure SearchResult where
  first_name : Option (Option FirstNameData)

/-- `{'M': 'Male', 'F': 'Female'}`. -/
def gender_map : List (String × String) := [("M", "Male"), ("F", "Female")]

/-- `validate_with_names_dataset`, instrumented: the second component records
whether `names_dataset.search` was invoked (the source calls it right after
the gender normalization check). -/
def validate_with_names_datasetT (name gender country : String)
    (search : String → Option SearchResult) (min_rank : Int) :
    Option ValidationError × Bool :=
  match gender_map.lookup (pyUpper gender) with
  | none => (some ⟨"invalid_gender", "Invalid gender: " ++ gender⟩, false)
  | some normalized_gender =>
    match search name with
    | none => (some ⟨"not_found", "Name not found in names-dataset: " ++ name⟩, true)
    | some result =>
      match result.first_name with
      | none => (some ⟨"not_found", "Name not found in names-dataset: " ++ name⟩, true)
      | some none => (some ⟨"not_found", "Name not found in names-dataset: " ++ name⟩, true)
      | some (some fnd) =>
        if !(fnd.countryKeys.contains (pyUpper country)) then
          (some ⟨"country_mismatch",
            "Name " ++ name ++ " not found for country " ++ country⟩, true)
        else
          let gender_prob := (fnd.genderProbs.lookup normalized_gender).getD 0
          if gender_prob < mkRat 1 2 then
            (some ⟨"gender_mismatch",
              "Gender mismatch for " ++ name ++ ": expected " ++ normalized_gender⟩, true)
          else
            -- The source reads the rank with the raw `country`, not `country.upper()`,
            -- and `if country_rank and ...` makes both a missing and a zero rank falsy.
            match fnd.rankByCountry.lookup country with
            | none => (none, true)
            | some country_rank =>
              if country_rank ≠ 0 && min_rank < country_rank then
                (some ⟨"too_rare", "Name " ++ name ++ " too rare in " ++ country⟩, true)
              else
                (none, true)

def validate_with_names_dataset (name gender country : String)
    (search : String → Option SearchResult) (min_rank : Int) : Option ValidationError :=
  (validate_with_names_datasetT name gender country search min_rank).1

/-- `validate_all`, instrumented with the search-invocation flag.  Every
`if error:` in the source tests the truthiness of an `Optional[ValidationError]`,
which `errTruthy` reproduces (including `ValidationError.__bool__ == False`). -/
def validate_allT (name gender country : String) (search : String → Option SearchResult)
    (min_length max_length : Nat) (min_rank : Int) (skip_length_check : Bool) :
    Option ValidationError × Bool :=
  if is_joke_name name then
    (some ⟨"joke_name", "Known joke/pseudonym: " ++ name⟩, false)
  else if is_suspicious_pattern name then
    (some ⟨"suspicious_pattern", "Suspicious pattern: " ++ name⟩, false)
  else if is_not_first_name name then
    (some ⟨"not_first_name", "Not a first name: " ++ name⟩, false)
  else if is_country_blacklisted name country then
    (some ⟨"country_blacklisted", "Blacklisted for " ++ country ++ ": " ++ name⟩, false)
  else
    let afterLengthCheck : Option ValidationError × Bool :=
      let char_error := validate_character_set name country
      if errTruthy char_error then (char_error, false)
      else
        let format_error := validate_name_format name country
        if errTruthy format_error then (format_error, false)
        else
          let double_name_error := validate_double_names name
          if errTruthy double_name_error then (double_name_error, false)
          else
            let dataset := validate_with_names_datasetT name gender country search min_rank
            if errTruthy dataset.1 then dataset else (none, dataset.2)
    if skip_length_check then afterLengthCheck
    else
      let length_error := validate_length name min_length max_length
      if errTruthy length_error then (length_error, false) else afterLengthCheck

def validate_all (name gender country : String) (search : String → Option SearchResult)
    (min_length max_length : Nat) (min_rank : Int) (skip_length_check : Bool) :
    Option ValidationError :=
  (validate_allT name gender country search min_length max_length min_rank skip_length_check).1

/-! ## `cleaner.py`: `CleaningStats` and the row loop of `clean_country` -/

structure CleaningStats where
  total_rows : Nat
  valid_rows : Nat
  filtered_rows : Nat
  /-- The `filtered_reasons` dict, as an association list with unique keys. -/
  filtered_reasons : List (String × Nat)
  deriving DecidableEq, Repr

def initialCleaningStats : CleaningStats := ⟨0, 0, 0, []⟩

/-- `dict.get(reason, 0) + 1` assignment on the association list. -/
def bumpReason : List (String × Nat) → String → List (String × Nat)
  | [], r => [(r, 1)]
  | (k, v) :: rest, r => if k = r then (k, v + 1) :: rest else (k, v) :: bumpReason rest r

/-- `CleaningStats.add_filtered`. -/
def add_filtered (s : CleaningStats) (reason : String) : CleaningStats :=
  { s with filtered_rows := s.filtered_rows + 1,
           filtered_reasons := bumpReason s.filtered_reasons reason }

/-- One iteration of the `for row in reader` loop in `clean_country`
(progress-bar updates and batched file writes are I/O and are dropped; the
second component is the row as written to the output file, when valid). -/
def processRow (country : String) (search : String → Option SearchResult)
    (min_length max_length : Nat) (min_rank : Int)
    (stats : CleaningStats) (row : List String) : CleaningStats × Option (List String) :=
  let stats := { stats with total_rows := stats.total_rows + 1 }
  if row.length < 3 then
    (add_filtered stats "invalid_csv_format", none)
  else
    let first_name := row.getD 0 ""
    let gender_raw := row.getD 2 ""
    let name_len := first_name.length
    if name_len < min_length || max_length < name_len then
      (add_filtered stats (if name_len < min_length then "too_short" else "too_long"), none)
    else if gender_raw ≠ "M" && gender_raw ≠ "F" && gender_raw ≠ "m" && gender_raw ≠ "f" then
      (add_filtered stats "invalid_gender", none)
    else
      let gender := pyUpper gender_raw
      let stripped_name := pyStrip first_name
      let error := validate_all stripped_name gender country search
        min_length max_length min_rank true
      if errTruthy error then
        (add_filtered stats (match error with | some e => e.reason | none => ""), none)
      else
        ({ stats with valid_rows := stats.valid_rows + 1 }, some row)

/-- The whole row loop: fold `processRow` over the parsed CSV rows, starting
from the fresh `CleaningStats()` that `clean_country` allocates, collecting the
rows written to the output file. -/
def clean_country_rows (country : String) (search : String → Option SearchResult)
    (min_length max_length : Nat) (min_rank : Int)
    (rows : List (List String)) : CleaningStats × List (List String) :=
  rows.foldl
    (fun acc row =>
      let step := processRow country search min_length max_length min_rank acc.1 row
      (step.1, match step.2 with | some r => acc.2 ++ [r] | none => acc.2))
    (initialCleaningStats, [])

/-! ## `generator.py`: `DatasetGenerator.is_valid_first_name` -/

/-- Regex `^[A-Z]\.?[A-Z]\.?` (anchored at the start only): an uppercase ASCII
letter, an optional period, and a second uppercase ASCII letter (the final
optional period cannot make the match fail). -/
def initialsMatch : List Char → Bool
  | a :: b :: rest =>
    a.isUpper && (b.isUpper ||
      (b = '.' && (match rest with | c :: _ => c.isUpper | [] => false)))
  | _ => false

/-- Tail of the full word-shape match: middle characters may be word
characters, hyphens or apostrophes; the final character must be a word
character. -/
def fwTail : List Char → Bool
  | [] => false
  | [x] => isWordPy x
  | x :: rest => (isWordPy x || x = '-' || x = apoChar) && fwTail rest

/-- Full match of the word-shape regex: a word character, then word
characters, hyphens or apostrophes, ending in a word character (length at
least two). -/
def fullWordMatch : List Char → Bool
  | [] => false
  | [_] => false
  | a :: rest => isWordPy a && fwTail rest

/-- `l` is the unit `u` repeated one or more times. -/
def isRepeatOf (u l : List Char) : Bool :=
  !u.isEmpty && l.length % u.length == 0 &&
    decide (l = (List.replicate (l.length / u.length) u).flatten)

/-- Regex `^(\w{1,3})\1+$`: the string is some 1–3 word-character unit (the
capture is necessarily the first 1–3 characters of the string) repeated at least
twice in total. -/
def redupMatch (l : List Char) : Bool :=
  [1, 2, 3].any (fun L =>
    let u := l.take L
    u.length == L && u.all isWordPy && decide (2 * L ≤ l.length) && isRepeatOf u l)

def GENERATOR_BLACKLIST : List String :=
  ["rien", "empty", "trop", "equipe", "entreprise", "bro", "bienvenue", "zouz",
   "null", "undefined", "test", "user", "admin", "nom", "prenom", "name",
   "surname", "firstname", "lastname", "unknown", "inconnu", "anonymous",
   "umm"]

def REDUPLICATED : List String :=
  ["titi", "toto", "momo", "bobo", "gigi", "lolo", "dodo",
   "coco", "jojo", "doudou", "boubou", "moumoune", "chou",
   "nounou", "loulou", "fifi", "riri", "sisi", "zizi"]

def COMMON_WORDS : List String :=
  ["bonjour", "salut", "hello", "petit", "petite", "grand",
   "grande", "monsieur", "madame", "mademoiselle", "ami", "amie",
   "frere", "soeur", "fils", "fille", "garcon",
   "mr", "mrs", "ms", "miss", "dr", "prof"]

def CLIPPED_ABBREVIATIONS : List String :=
  ["antho", "clem", "djo", "flo", "jerem", "seb", "stef", "xav",
   "ced", "gigi", "dodo", "loul", "nini", "toutou", "mouss",
   "boba", "kika", "nana", "baba", "riri", "fifi", "sisi"]

def DIMINUTIVES : List String :=
  ["boubou", "momo", "lolo", "djo", "nino", "toto", "titi",
   "coco", "jojo", "gigi", "mouss", "loulou", "doudou"]

def OBVIOUS_NICKNAMES : List String :=
  ["ben", "dan", "dom", "fab", "gil", "jack", "jim", "joe",
   "jul", "kev", "mat", "med", "mick", "mike", "nico", "phil",
   "sam", "stan", "tom", "ted", "tim", "bob", "max", "totof",
   "papi", "doudou", "loulou", "coco", "mimi", "gigi", "bibi",
   "titi", "toto", "lolo", "nini", "momo", "bobo", "kiki", "fifi",
   "sisi", "zizi", "riri", "jaja", "mama", "papa", "dodo", "lili"]

/-- `DatasetGenerator.is_valid_first_name`, check for check in source order. -/
def is_valid_first_name (s : String) : Bool :=
  let name := pyStrip s
  let name_lower := pyLower name
  let l := name.toList
  let ll := name_lower.toList
  if name.length < 3 || 20 < name.length then false
  else if l.any Char.isDigit then false
  else if initialsMatch l then false
  else if endsWithList ['.'] l then false
  else if pyIsUpper name && name.length ≤ 4 then false
  else if !(l.any isWordPy) then false
  else if !(fullWordMatch l) then false
  else if containsList ['-', '-'] l || containsList [apoChar, apoChar] l then false
  else if ((ll.filter (fun c => c ≠ '-' && c ≠ apoChar)).dedup).length ≤ 1 then false
  else if !(ll.any (fun c => ['a', 'e', 'i', 'o', 'u', 'y'].contains c)) then false
  else if endsWithList ['a', 'a'] ll then false
  else if containsList ['i', 'i'] ll && name_lower ≠ "hawaii" then false
  else if containsList ['u', 'u'] ll then false
  else if GENERATOR_BLACKLIST.contains name_lower then false
  else if redupMatch ll then false
  else if REDUPLICATED.contains name_lower then false
  else if COMMON_WORDS.contains name_lower then false
  else if CLIPPED_ABBREVIATIONS.contains name_lower then false
  else if DIMINUTIVES.contains name_lower then false
  else if OBVIOUS_NICKNAMES.contains name_lower then false
  else true

/-! ## `generator.py`: `DatasetGenerator.fetch_names_until_sufficient`

External dependencies of the method are passed explicitly:
* `valid` is `self.is_valid_first_name` (instantiated with the real predicate
  in `fetch_names_until_sufficient` below; kept as a parameter so that the
  idealised always-yielding sources of the spec are expressible),
* `getTop n` is `self.nd.get_top_names(n, ...).get(country, {}).get(gender, [])`
  for the fixed `(country, gender)` of the call,
* `useAI` is `self.config.use_ai`, and `ai` is `self.clean_batch_with_ai`.

Python floats are modelled as exact rationals (see the header note). -/

/-- The `for name in final_batch: if name not in all_valid_names: append`
accumulation. -/
def dedupAppend (acc l : List String) : List String :=
  l.foldl (fun acc n => if n ∈ acc then acc else acc ++ [n]) acc

structure FetchState where
  allValid : List String
  totalFetched : Nat
  regexFiltered : Int
  aiFiltered : Int
  yieldRate : ℚ
  currentOffset : Nat
  deriving DecidableEq, Repr

/-- `clean_batch_with_ai` is applied to chunks of 100 candidates. -/
def chunks100 (l : List String) : List (List String) :=
  if l = [] then [] else l.take 100 :: chunks100 (l.drop 100)
termination_by l.length
decreasing_by
  simp only [List.length_drop]
  cases l with
  | nil => simp_all
  | cons a rest => simp; omega

/-- The batch-size heuristic of one iteration:
`needed = target_count - len(all_valid_names)`,
`estimate_to_fetch = int((needed / yield_rate) * 1.5)`,
`step_size = max(200, min(estimate_to_fetch, 1000 if use_ai else 5000))`. -/
def stepSize (useAI : Bool) (target : Nat) (s : FetchState) : Nat :=
  let needed : ℚ := ratSub (mkRat (target : Int) 1) (mkRat (s.allValid.length : Int) 1)
  let estimate : Nat := (ratMul (ratDiv needed s.yieldRate) (mkRat 3 2)).floor.toNat
  let maxStep : Nat := if useAI then 1000 else 5000
  max 200 (min estimate maxStep)

/-- The yield-rate update of one iteration (an exponential moving average of
the per-batch acceptance rate, floored at 0.01). -/
def updatedYieldRate (s : FetchState) (fetched2 batchLen finalLen : Nat) : ℚ :=
  if 0 < fetched2 then
    let currentBatchYield : ℚ :=
      if 0 < batchLen then ratDiv (mkRat (finalLen : Int) 1) (mkRat (batchLen : Int) 1)
      else 0
    ratMax (mkRat 1 100)
      (ratAdd (ratMul s.yieldRate (mkRat 3 10)) (ratMul currentBatchYield (mkRat 7 10)))
  else s.yieldRate

/-- One iteration of `for iteration in range(max_iterations)`: `none` means a
`break` was taken (quota reached, or the source returned no new names). -/
def fetchStep (valid : String → Bool) (getTop : Nat → List String)
    (useAI : Bool) (ai : List String → List String) (target : Nat)
    (s : FetchState) : Option FetchState :=
  -- needed = target_count - len(all_valid_names); break if needed <= 0
  if target ≤ s.allValid.length then none
  else
    let requestN : Nat := s.currentOffset + stepSize useAI target s
    let fullList := getTop requestN
    let batch := fullList.drop s.currentOffset
    if batch.isEmpty then none
    else
      let offset2 := fullList.length
      let fetched2 := s.totalFetched + batch.length
      let regexValid := batch.filter valid
      let regexFiltered2 := s.regexFiltered + ((batch.length : Int) - (regexValid.length : Int))
      let afterAI : List String × Int :=
        if useAI && !regexValid.isEmpty then
          let aiNames := ((chunks100 regexValid).map ai).flatten
          let finalBatch := aiNames.filter valid
          (finalBatch, s.aiFiltered + ((regexValid.length : Int) - (finalBatch.length : Int)))
        else
          (regexValid, s.aiFiltered)
      some ⟨dedupAppend s.allValid afterAI.1, fetched2, regexFiltered2, afterAI.2,
        updatedYieldRate s fetched2 batch.length afterAI.1.length, offset2⟩

/-- The loop itself, as a fuel-indexed recursion over `fetchStep`. -/
def fetchLoop (valid : String → Bool) (getTop : Nat → List String)
    (useAI : Bool) (ai : List String → List String) (target : Nat) :
    Nat → FetchState → FetchState
  | 0, s => s
  | fuel + 1, s =>
    match fetchStep valid getTop useAI ai target s with
    | none => s
    | some s2 => fetchLoop valid getTop useAI ai target fuel s2

/-- Initial sampler state: empty accumulator, zero counters, yield rate 0.5,
offset 0. -/
def initFetchState : FetchState := ⟨[], 0, 0, 0, mkRat 1 2, 0⟩

/-- `max_iterations = 50`. -/
def maxFetchIterations : Nat := 50

/-- `fetch_names_until_sufficient` with the validity predicate injected:
run the loop and return
`(all_valid_names[:target_count], total_fetched, regex_filtered_total, ai_filtered_total)`. -/
def fetch_until_sufficient_gen (valid : String → Bool) (getTop : Nat → List String)
    (useAI : Bool) (ai : List String → List String) (target : Nat) :
    List String × Nat × Int × Int :=
  let s := fetchLoop valid getTop useAI ai target maxFetchIterations initFetchState
  (s.allValid.take target, s.totalFetched, s.regexFiltered, s.aiFiltered)

/-- `DatasetGenerator.fetch_names_until_sufficient`: the loop with the
own `is_valid_first_name` predicate of the program. -/
def fetch_names_until_sufficient (getTop : Nat → List String)
    (useAI : Bool) (ai : List String → List String) (target : Nat) :
    List String × Nat × Int × Int :=
  fetch_until_sufficient_gen is_valid_first_name getTop useAI ai target

/-- The loop-state invariant under a duplicate-free, prefix-consistent source
and no external classifier: the accumulator is exactly the valid names among
the first `currentOffset` source names, `totalFetched = currentOffset`, and
the rejection counters account for the rest. -/
def FetchInv (valid : String → Bool) (getTop : Nat → List String) (s : FetchState) : Prop :=
  s.allValid = (getTop s.currentOffset).filter valid ∧
  s.totalFetched = s.currentOffset ∧
  s.currentOffset = (getTop s.currentOffset).length ∧
  s.regexFiltered = (s.currentOffset : Int) - (s.allValid.length : Int) ∧
  s.aiFiltered = 0

def takeSource (ranking : List String) : Nat → List String := fun n => ranking.take n

/-- The idealised inexhaustible source: request `n` yields `n` distinct
synthetic names, consistently ranked. -/
def streamNames : Nat → List String :=
  fun n => (List.range n).map (fun i => String.mk (List.replicate i 'a'))

/-- The idealised always-accepting local predicate. -/
def acceptAll : String → Bool := fun _ => true

/-- A names-dataset stub that knows no names (`search` returns `None`). -/
def emptySearch : String → Option SearchResult := fun _ => none

/-- Total of the per-reason counters. -/
def reasonsTotal (l : List (String × Nat)) : Nat := (l.map Prod.snd).sum

/-- The books balance: every observed row is either valid or filtered, and the
per-reason counters sum to the filtered count. -/
def StatsInv (s : CleaningStats) : Prop :=
  s.total_rows = s.valid_rows + s.filtered_rows ∧
  reasonsTotal s.filtered_reasons = s.filtered_rows

theorem rat_mul_den (a : ℚ) (ha : ((a.den : ℚ)) ≠ 0) : a * (a.den : ℚ) = (a.num : ℚ) := by
  nth_rewrite 1 [← Rat.num_div_den a]
  exact div_mul_cancel₀ _ ha

theorem ratAdd_eq (a b : ℚ) : ratAdd a b = a + b := by
  have ha : ((a.den : ℚ)) ≠ 0 := by exact_mod_cast a.den_nz
  have hb : ((b.den : ℚ)) ≠ 0 := by exact_mod_cast b.den_nz
  have hA := rat_mul_den a ha
  have hB := rat_mul_den b hb
  rw [ratAdd, Rat.mkRat_eq_div]
  push_cast
  rw [div_eq_iff (mul_ne_zero ha hb), ← hA, ← hB]
  ring

theorem ratSub_eq (a b : ℚ) : ratSub a b = a - b := by
  have ha : ((a.den : ℚ)) ≠ 0 := by exact_mod_cast a.den_nz
  have hb : ((b.den : ℚ)) ≠ 0 := by exact_mod_cast b.den_nz
  have hA := rat_mul_den a ha
  have hB := rat_mul_den b hb
  rw [ratSub, Rat.mkRat_eq_div]
  push_cast
  rw [div_eq_iff (mul_ne_zero ha hb), ← hA, ← hB]
  ring

theorem ratMul_eq (a b : ℚ) : ratMul a b = a * b := by
  have ha : ((a.den : ℚ)) ≠ 0 := by exact_mod_cast a.den_nz
  have hb : ((b.den : ℚ)) ≠ 0 := by exact_mod_cast b.den_nz
  have hA := rat_mul_den a ha
  have hB := rat_mul_den b hb
  rw [ratMul, Rat.mkRat_eq_div]
  push_cast
  rw [div_eq_iff (mul_ne_zero ha hb), ← hA, ← hB]
  ring

theorem ratDiv_key (a b : ℚ) :
    ((a.num : ℚ) * b.den) / ((a.den : ℚ) * b.num) = a / b := by
  have ha : ((a.den : ℚ)) ≠ 0 := by exact_mod_cast a.den_nz
  have hb : ((b.den : ℚ)) ≠ 0 := by exact_mod_cast b.den_nz
  have hA := rat_mul_den a ha
  have hB := rat_mul_den b hb
  rcases eq_or_ne b 0 with rfl | hbz
  · simp
  · have hbn : ((b.num : ℚ)) ≠ 0 := by
      simpa using (Rat.num_ne_zero).mpr hbz
    rw [div_eq_div_iff (mul_ne_zero ha hbn) hbz, ← hA, ← hB]
    ring

theorem ratDiv_eq (a b : ℚ) : ratDiv a b = a / b := by
  rw [ratDiv]
  split
  · next h =>
    have hcast : (((b.num.toNat : ℕ)) : ℚ) = ((b.num : ℤ) : ℚ) := by
      exact_mod_cast congrArg (fun z : ℤ => (z : ℚ)) (Int.toNat_of_nonneg h)
    rw [Rat.mkRat_eq_div]
    push_cast
    rw [hcast, ratDiv_key]
  · next h =>
    have hcast : ((((-b.num).toNat : ℕ)) : ℚ) = ((-b.num : ℤ) : ℚ) := by
      exact_mod_cast congrArg (fun z : ℤ => (z : ℚ))
        (Int.toNat_of_nonneg (by omega : (0 : ℤ) ≤ -b.num))
    rw [Rat.mkRat_eq_div]
    push_cast
    rw [hcast]
    push_cast
    rw [mul_neg, neg_div_neg_eq, ratDiv_key]

theorem ratMax_eq (a b : ℚ) : ratMax a b = max a b := by
  rw [ratMax]
  rcases le_total b a with h | h
  · simp [max_eq_left h, h]
  · rcases eq_or_lt_of_le h with rfl | hlt
    · simp
    · simp [not_le.mpr hlt, max_eq_right (le_of_lt hlt)]

/-! ## Lemmas about the deduplicating append -/

theorem dedupAppend_nil (acc : List String) : dedupAppend acc [] = acc := rfl

theorem dedupAppend_cons (acc : List String) (n : String) (l : List String) :
    dedupAppend acc (n :: l) = dedupAppend (if n ∈ acc then acc else acc ++ [n]) l := rfl

theorem dedupAppend_nodup (l : List String) :
    ∀ acc : List String, acc.Nodup → (dedupAppend acc l).Nodup := by
  induction l with
  | nil => intro acc h; simpa [dedupAppend_nil] using h
  | cons n l ih =>
    intro acc h
    rw [dedupAppend_cons]
    by_cases hn : n ∈ acc
    · simpa [hn] using ih acc h
    · have hacc : (acc ++ [n]).Nodup := by
        simp [List.nodup_append, h, hn]
      simpa [hn] using ih _ hacc

theorem dedupAppend_eq_append (l : List String) :
    ∀ acc : List String, (∀ x ∈ l, x ∉ acc) → l.Nodup →
      dedupAppend acc l = acc ++ l := by
  induction l with
  | nil => intro acc _ _; simp [dedupAppend_nil]
  | cons n l ih =>
    intro acc hdisj hnd
    rw [dedupAppend_cons, if_neg (hdisj n (List.mem_cons_self n l))]
    have hdisj2 : ∀ x ∈ l, x ∉ acc ++ [n] := by
      intro x hx
      simp only [List.mem_append, List.mem_singleton]
      push_neg
      refine ⟨hdisj x (List.mem_cons_of_mem _ hx), ?_⟩
      intro hxn
      exact (List.nodup_cons.mp hnd).1 (hxn ▸ hx)
    rw [ih (acc ++ [n]) hdisj2 (List.nodup_cons.mp hnd).2]
    simp

theorem dedupAppend_length_le (l : List String) :
    ∀ acc : List String, (dedupAppend acc l).length ≤ acc.length + l.length := by
  induction l with
  | nil => intro acc; simp [dedupAppend_nil]
  | cons n l ih =>
    intro acc
    rw [dedupAppend_cons]
    by_cases hn : n ∈ acc
    · rw [if_pos hn]
      calc (dedupAppend acc l).length ≤ acc.length + l.length := ih acc
        _ ≤ acc.length + (n :: l).length := by simp
    · rw [if_neg hn]
      calc (dedupAppend (acc ++ [n]) l).length ≤ (acc ++ [n]).length + l.length := ih _
        _ = acc.length + (n :: l).length := by simp; omega

/-! ## Invariants of the sampling loop -/

theorem stepSize_le_5000 (target : Nat) (s : FetchState) :
    stepSize false target s ≤ 5000 := by
  rw [stepSize]
  exact max_le (by norm_num) (le_trans (min_le_right _ _) (by norm_num))

theorem le_stepSize (useAI : Bool) (target : Nat) (s : FetchState) :
    200 ≤ stepSize useAI target s := le_max_left _ _

theorem fetchStep_nodup (valid : String → Bool) (getTop : Nat → List String)
    (useAI : Bool) (ai : List String → List String) (target : Nat)
    (s s' : FetchState)
    (hstep : fetchStep valid getTop useAI ai target s = some s')
    (h : s.allValid.Nodup) : s'.allValid.Nodup := by
  simp only [fetchStep] at hstep
  split at hstep
  · simp at hstep
  · split at hstep
    · simp at hstep
    · simp only [Option.some.injEq] at hstep
      subst hstep
      exact dedupAppend_nodup _ _ h

theorem fetchStep_inv (valid : String → Bool) (getTop : Nat → List String)
    (ai : List String → List String) (target : Nat) (s s' : FetchState)
    (hlenle : ∀ n, (getTop n).length ≤ n)
    (hnodup : ∀ n, (getTop n).Nodup)
    (hpref : ∀ m n, m ≤ n → getTop m = (getTop n).take m)
    (hInv : FetchInv valid getTop s)
    (hstep : fetchStep valid getTop false ai target s = some s') :
    FetchInv valid getTop s' := by
  obtain ⟨hA, hB, hC, hD, hE⟩ := hInv
  simp only [fetchStep] at hstep
  split at hstep
  · simp at hstep
  · split at hstep
    case isTrue => simp at hstep
    case isFalse hbatch =>
      simp only [Bool.false_and, Bool.false_eq_true, if_false, Option.some.injEq] at hstep
      subst hstep
      set K := stepSize false target s with hK
      set off := s.currentOffset with hoff
      set fl := getTop (off + K) with hfl
      have hoffle : off ≤ fl.length := by
        by_contra hlt
        push_neg at hlt
        exact hbatch (by
          simp only [List.isEmpty_iff]
          exact List.drop_eq_nil_of_le (le_of_lt hlt))
      have hfl_take : getTop off = fl.take off := hpref _ _ (Nat.le_add_right _ _)
      have h2 : ((fl.take off) ++ (fl.drop off)).Nodup := by
        rw [List.take_append_drop]
        exact hnodup _
      have hparts := List.nodup_append.mp h2
      have hnew : ∀ x ∈ (fl.drop off).filter valid, x ∉ s.allValid := by
        intro x hx
        rw [hA, hoff, hfl_take]
        intro hxin
        exact hparts.2.2 (List.mem_of_mem_filter hxin) (List.mem_of_mem_filter hx)
      have hAA : dedupAppend s.allValid ((fl.drop off).filter valid) =
          s.allValid ++ (fl.drop off).filter valid :=
        dedupAppend_eq_append _ _ hnew (hparts.2.1.filter _)
      have hfl_self : getTop fl.length = fl := by
        rw [hpref fl.length (off + K) (hlenle _), List.take_length]
      refine ⟨?_, ?_, ?_, ?_, ?_⟩
      · show dedupAppend s.allValid _ = _
        rw [hAA, hA, hoff, hfl_take, hfl_self, ← List.filter_append, List.take_append_drop]
      · show s.totalFetched + (fl.drop off).length = fl.length
        rw [hB, List.length_drop]
        omega
      · show fl.length = (getTop fl.length).length
        rw [hfl_self]
      · show s.regexFiltered + _ = _
        rw [hAA]
        have hfilterle : ((fl.drop off).filter valid).length ≤ (fl.drop off).length :=
          List.length_filter_le _ _
        rw [hD]
        simp only [List.length_append, List.length_drop]
        push_cast
        omega
      · exact hE

theorem fetchStep_len_le (valid : String → Bool) (getTop : Nat → List String)
    (ai : List String → List String) (target : Nat) (s s' : FetchState)
    (hlenle : ∀ n, (getTop n).length ≤ n)
    (hstep : fetchStep valid getTop false ai target s = some s') :
    s'.allValid.length ≤ s.allValid.length + 5000 := by
  simp only [fetchStep] at hstep
  split at hstep
  · simp at hstep
  · split at hstep
    case isTrue => simp at hstep
    case isFalse hbatch =>
      simp only [Bool.false_and, Bool.false_eq_true, if_false, Option.some.injEq] at hstep
      subst hstep
      show (dedupAppend s.allValid _).length ≤ _
      calc (dedupAppend s.allValid
            (((getTop (s.currentOffset + stepSize false target s)).drop
              s.currentOffset).filter valid)).length
          ≤ s.allValid.length +
            (((getTop (s.currentOffset + stepSize false target s)).drop
              s.currentOffset).filter valid).length := dedupAppend_length_le _ _
        _ ≤ s.allValid.length + 5000 := by
            have h1 := List.length_filter_le valid
              ((getTop (s.currentOffset + stepSize false target s)).drop s.currentOffset)
            have h2 : ((getTop (s.currentOffset + stepSize false target s)).drop
                s.currentOffset).length ≤ stepSize false target s := by
              rw [List.length_drop]
              have := hlenle (s.currentOffset + stepSize false target s)
              omega
            have h3 := stepSize_le_5000 target s
            omega

theorem mkRat_int_one (z : Int) : mkRat z 1 = (z : ℚ) := by
  rw [Rat.mkRat_eq_div]
  norm_num

theorem stepSize_false_eq (target : Nat) (s : FetchState) :
    stepSize false target s = max 200 (min
      ((ratMul (ratDiv (ratSub (mkRat (target : Int) 1) (mkRat (s.allValid.length : Int) 1))
        s.yieldRate) (mkRat 3 2)).floor.toNat) 5000) := rfl

/-- With a yield-rate estimate in `(0, 1]`, the batch-size heuristic never
undershoots: `estimate = int(1.5 * needed / y) ≥ needed`, so one iteration is
sized to fetch at least `min(needed, 5000)` names. -/
theorem stepSize_needed_le (target : Nat) (s : FetchState)
    (hy0 : 0 < s.yieldRate) (hy1 : s.yieldRate ≤ 1)
    (hneed : s.allValid.length < target) :
    min (target - s.allValid.length) 5000 ≤ stepSize false target s := by
  rw [stepSize_false_eq]
  set needed : Nat := target - s.allValid.length with hneeddef
  have hkey : needed ≤ ((ratMul (ratDiv (ratSub (mkRat (target : Int) 1)
      (mkRat (s.allValid.length : Int) 1)) s.yieldRate) (mkRat 3 2)).floor.toNat) := by
    have hq : ratMul (ratDiv (ratSub (mkRat (target : Int) 1)
        (mkRat (s.allValid.length : Int) 1)) s.yieldRate) (mkRat 3 2) =
        ((needed : ℚ) / s.yieldRate) * (3 / 2) := by
      rw [ratMul_eq, ratDiv_eq, ratSub_eq, mkRat_int_one, mkRat_int_one]
      rw [Rat.mkRat_eq_div]
      push_cast [hneeddef, Nat.cast_sub (le_of_lt hneed)]
      ring
    have hstep1 : ((needed : ℚ)) ≤ (needed : ℚ) / s.yieldRate := by
      rw [le_div_iff₀ hy0]
      exact mul_le_of_le_one_right (by positivity) hy1
    have hstep2 : ((needed : ℚ)) ≤ ((needed : ℚ) / s.yieldRate) * (3 / 2) := by
      refine le_trans hstep1 (le_mul_of_one_le_right ?_ (by norm_num))
      positivity
    have hfloor : ((needed : Int)) ≤ (((needed : ℚ) / s.yieldRate) * (3 / 2)).floor := by
      rw [Rat.le_floor]
      push_cast
      exact hstep2
    rw [hq]
    omega
  omega

/-- For an all-valid batch (`finalLen = batchLen`), the exponential moving
average keeps the yield rate inside `(0, 1]`. -/
theorem updatedYieldRate_bounds (s : FetchState) (f b : Nat)
    (hf : 0 < f) (hb : 0 < b) (hy1 : s.yieldRate ≤ 1) :
    0 < updatedYieldRate s f b b ∧ updatedYieldRate s f b b ≤ 1 := by
  rw [updatedYieldRate, if_pos hf, if_pos hb]
  have hb2 : ((b : ℚ)) ≠ 0 := by positivity
  have hone : ratDiv (mkRat (b : Int) 1) (mkRat (b : Int) 1) = 1 := by
    rw [ratDiv_eq, mkRat_int_one]
    push_cast
    exact div_self hb2
  rw [ratMax_eq, ratAdd_eq, ratMul_eq, ratMul_eq, hone]
  have h1 : mkRat 1 100 = (1 / 100 : ℚ) := by
    rw [Rat.mkRat_eq_div]
    norm_num
  have h3 : mkRat 3 10 = (3 / 10 : ℚ) := by
    rw [Rat.mkRat_eq_div]
    norm_num
  have h7 : mkRat 7 10 = (7 / 10 : ℚ) := by
    rw [Rat.mkRat_eq_div]
    norm_num
  rw [h1, h3, h7]
  constructor
  · exact lt_max_of_lt_left (by norm_num)
  · exact max_le (by norm_num) (by nlinarith)

theorem init_yield_bounds : 0 < initFetchState.yieldRate ∧ initFetchState.yieldRate ≤ 1 := by
  constructor <;> · show _
                    rw [show initFetchState.yieldRate = mkRat 1 2 from rfl, Rat.mkRat_eq_div]
                    norm_num

theorem fetchStep_reach (valid : String → Bool) (getTop : Nat → List String)
    (ai : List String → List String) (target : Nat) (s : FetchState)
    (hlen : ∀ n, (getTop n).length = n)
    (hnodup : ∀ n, (getTop n).Nodup)
    (hpref : ∀ m n, m ≤ n → getTop m = (getTop n).take m)
    (hvalid : ∀ n x, x ∈ getTop n → valid x = true)
    (hInv : FetchInv valid getTop s)
    (hy0 : 0 < s.yieldRate) (hy1 : s.yieldRate ≤ 1)
    (hneed : s.allValid.length < target) :
    ∃ s', fetchStep valid getTop false ai target s = some s' ∧
      s'.allValid.length = s.allValid.length + stepSize false target s ∧
      0 < s'.yieldRate ∧ s'.yieldRate ≤ 1 := by
  obtain ⟨hA, hB, hC, hD, hE⟩ := hInv
  cases hstep : fetchStep valid getTop false ai target s with
  | none =>
    exfalso
    simp only [fetchStep] at hstep
    rw [if_neg (not_le.mpr hneed)] at hstep
    split at hstep
    case isTrue hbatch =>
      rw [List.isEmpty_iff] at hbatch
      have hlendrop := congrArg List.length hbatch
      rw [List.length_drop, hlen] at hlendrop
      have := le_stepSize false target s
      simp at hlendrop
      omega
    case isFalse => simp at hstep
  | some s' =>
    refine ⟨s', rfl, ?_⟩
    simp only [fetchStep] at hstep
    split at hstep
    · simp at hstep
    · split at hstep
      case isTrue => simp at hstep
      case isFalse hbatch =>
        simp only [Bool.false_and, Bool.false_eq_true, if_false, Option.some.injEq] at hstep
        subst hstep
        set K := stepSize false target s with hK
        set off := s.currentOffset with hoff
        set fl := getTop (off + K) with hfl
        have hfl_take : getTop off = fl.take off := hpref _ _ (Nat.le_add_right _ _)
        have h2 : ((fl.take off) ++ (fl.drop off)).Nodup := by
          rw [List.take_append_drop]
          exact hnodup _
        have hparts := List.nodup_append.mp h2
        have hfilter : (fl.drop off).filter valid = fl.drop off :=
          List.filter_eq_self.mpr (fun x hx => hvalid _ _ (List.mem_of_mem_drop hx))
        have hnew : ∀ x ∈ (fl.drop off).filter valid, x ∉ s.allValid := by
          intro x hx
          rw [hA, hoff, hfl_take]
          intro hxin
          exact hparts.2.2 (List.mem_of_mem_filter hxin) (List.mem_of_mem_filter hx)
        have hAA : dedupAppend s.allValid ((fl.drop off).filter valid) =
            s.allValid ++ (fl.drop off).filter valid :=
          dedupAppend_eq_append _ _ hnew (hparts.2.1.filter _)
        have hblen : (fl.drop off).length = K := by
          rw [List.length_drop, hfl, hlen]
          omega
        refine ⟨?_, ?_⟩
        · show (dedupAppend s.allValid _).length = s.allValid.length + K
          rw [hAA, List.length_append, hfilter, hblen]
        · show 0 < updatedYieldRate s _ _ _ ∧ updatedYieldRate s _ _ _ ≤ 1
          rw [hfilter]
          exact updatedYieldRate_bounds s _ _
            (by have := le_stepSize false target s; omega)
            (by rw [hblen]; have := le_stepSize false target s; omega)
            hy1

theorem fetchInv_init (valid : String → Bool) (getTop : Nat → List String)
    (hlenle : ∀ n, (getTop n).length ≤ n) :
    FetchInv valid getTop initFetchState := by
  have h0 : getTop 0 = [] := List.eq_nil_of_length_eq_zero (Nat.le_zero.mp (hlenle 0))
  refine ⟨?_, rfl, ?_, rfl, rfl⟩
  · show ([] : List String) = (getTop 0).filter valid
    rw [h0]
    rfl
  · show 0 = (getTop 0).length
    rw [h0]
    rfl

theorem fetchLoop_nodup (valid : String → Bool) (getTop : Nat → List String)
    (useAI : Bool) (ai : List String → List String) (target : Nat) :
    ∀ (fuel : Nat) (s : FetchState), s.allValid.Nodup →
      (fetchLoop valid getTop useAI ai target fuel s).allValid.Nodup := by
  intro fuel
  induction fuel with
  | zero => intro s h; simpa [fetchLoop] using h
  | succ n ih =>
    intro s h
    rw [fetchLoop]
    cases hstep : fetchStep valid getTop useAI ai target s with
    | none => exact h
    | some s2 => exact ih s2 (fetchStep_nodup _ _ _ _ _ _ _ hstep h)

theorem fetchLoop_inv (valid : String → Bool) (getTop : Nat → List String)
    (ai : List String → List String) (target : Nat)
    (hlenle : ∀ n, (getTop n).length ≤ n)
    (hnodup : ∀ n, (getTop n).Nodup)
    (hpref : ∀ m n, m ≤ n → getTop m = (getTop n).take m) :
    ∀ (fuel : Nat) (s : FetchState), FetchInv valid getTop s →
      FetchInv valid getTop (fetchLoop valid getTop false ai target fuel s) := by
  intro fuel
  induction fuel with
  | zero => intro s h; simpa [fetchLoop] using h
  | succ n ih =>
    intro s h
    rw [fetchLoop]
    cases hstep : fetchStep valid getTop false ai target s with
    | none => exact h
    | some s2 => exact ih s2 (fetchStep_inv _ _ _ _ _ _ hlenle hnodup hpref h hstep)

theorem fetchLoop_len_le (valid : String → Bool) (getTop : Nat → List String)
    (ai : List String → List String) (target : Nat)
    (hlenle : ∀ n, (getTop n).length ≤ n) :
    ∀ (fuel : Nat) (s : FetchState),
      (fetchLoop valid getTop false ai target fuel s).allValid.length ≤
        s.allValid.length + fuel * 5000 := by
  intro fuel
  induction fuel with
  | zero => intro s; simp [fetchLoop]
  | succ n ih =>
    intro s
    rw [fetchLoop]
    cases hstep : fetchStep valid getTop false ai target s with
    | none =>
      show s.allValid.length ≤ _
      omega
    | some s2 =>
      have h1 := ih s2
      have h2 := fetchStep_len_le _ _ _ _ _ _ hlenle hstep
      calc (fetchLoop valid getTop false ai target n s2).allValid.length
          ≤ s2.allValid.length + n * 5000 := h1
        _ ≤ s.allValid.length + (n + 1) * 5000 := by omega

theorem fetchLoop_quota (valid : String → Bool) (getTop : Nat → List String)
    (ai : List String → List String) (target : Nat)
    (hlen : ∀ n, (getTop n).length = n)
    (hnodup : ∀ n, (getTop n).Nodup)
    (hpref : ∀ m n, m ≤ n → getTop m = (getTop n).take m)
    (hvalid : ∀ n x, x ∈ getTop n → valid x = true) :
    ∀ (fuel : Nat) (s : FetchState), FetchInv valid getTop s →
      0 < s.yieldRate → s.yieldRate ≤ 1 →
      target ≤ s.allValid.length + 5000 * fuel →
      target ≤ (fetchLoop valid getTop false ai target fuel s).allValid.length := by
  intro fuel
  induction fuel with
  | zero => intro s _ _ _ hbound; simpa [fetchLoop] using hbound
  | succ n ih =>
    intro s hInv hy0 hy1 hbound
    by_cases hdone : target ≤ s.allValid.length
    · have hnostep : fetchStep valid getTop false ai target s = none := by
        simp only [fetchStep]
        rw [if_pos hdone]
      rw [fetchLoop, hnostep]
      exact hdone
    · push_neg at hdone
      obtain ⟨s', hstep, hgrow, hy0', hy1'⟩ :=
        fetchStep_reach valid getTop ai target s hlen hnodup hpref hvalid hInv hy0 hy1 hdone
      have hmin := stepSize_needed_le target s hy0 hy1 hdone
      rw [fetchLoop, hstep]
      refine ih s' (fetchStep_inv valid getTop ai target s s'
        (fun n => (hlen n).le) hnodup hpref hInv hstep) hy0' hy1' ?_
      omega

theorem takeSource_lenle (ranking : List String) (n : Nat) :
    (takeSource ranking n).length ≤ n := by
  simp [takeSource, List.length_take]

theorem takeSource_nodup (ranking : List String) (hnd : ranking.Nodup) (n : Nat) :
    (takeSource ranking n).Nodup :=
  List.Nodup.sublist (List.take_sublist n ranking) hnd

theorem takeSource_pref (ranking : List String) (m n : Nat) (h : m ≤ n) :
    takeSource ranking m = (takeSource ranking n).take m := by
  simp [takeSource, List.take_take, min_eq_left h]

/-- C4 (amended): for a duplicate-free ranking served prefix-consistently
and no classifier configured, after every iteration the loop state satisfies
`total_fetched = |accumulated accepted| + regex_filtered` with
`ai_filtered = 0`; the returned tuple satisfies the same identity with the
accumulated accepted list, of which the returned name list is the
`target_count`-prefix (so the identity can overshoot the length of the
returned list). -/
theorem c4_accounting_identity_amended (ranking : List String) (hnd : ranking.Nodup)
    (ai : List String → List String) (target fuel : Nat) :
    ((fetchLoop is_valid_first_name (takeSource ranking) false ai target fuel
        initFetchState).totalFetched : Int) =
      (fetchLoop is_valid_first_name (takeSource ranking) false ai target fuel
        initFetchState).allValid.length +
      (fetchLoop is_valid_first_name (takeSource ranking) false ai target fuel
        initFetchState).regexFiltered ∧
    (fetchLoop is_valid_first_name (takeSource ranking) false ai target fuel
      initFetchState).aiFiltered = 0 ∧
    fetch_names_until_sufficient (takeSource ranking) false ai target =
      ((fetchLoop is_valid_first_name (takeSource ranking) false ai target
          maxFetchIterations initFetchState).allValid.take target,
       (fetchLoop is_valid_first_name (takeSource ranking) false ai target
          maxFetchIterations initFetchState).totalFetched,
       (fetchLoop is_valid_first_name (takeSource ranking) false ai target
          maxFetchIterations initFetchState).regexFiltered,
       (fetchLoop is_valid_first_name (takeSource ranking) false ai target
          maxFetchIterations initFetchState).aiFiltered) := by
  have hInv := fetchLoop_inv is_valid_first_name (takeSource ranking) ai target
    (takeSource_lenle ranking) (takeSource_nodup ranking hnd) (takeSource_pref ranking)
    fuel initFetchState
    (fetchInv_init is_valid_first_name (takeSource ranking) (takeSource_lenle ranking))
  obtain ⟨hA, hB, hC, hD, hE⟩ := hInv
  refine ⟨?_, hE, rfl⟩
  rw [hB, hD]
  omega

theorem streamNames_length (n : Nat) : (streamNames n).length = n := by
  simp [streamNames]

theorem streamNames_nodup (n : Nat) : (streamNames n).Nodup := by
  refine List.Nodup.map ?_ (List.nodup_range n)
  intro a b h
  have h2 : List.replicate a 'a' = List.replicate b 'a' := by
    injection h
  simpa using congrArg List.length h2

theorem streamNames_pref (m n : Nat) (h : m ≤ n) :
    streamNames m = (streamNames n).take m := by
  unfold streamNames
  rw [← List.map_take, List.take_range, min_eq_left h]

theorem fetch_gen_fst (valid : String → Bool) (getTop : Nat → List String)
    (useAI : Bool) (ai : List String → List String) (target : Nat) :
    (fetch_until_sufficient_gen valid getTop useAI ai target).1 =
      (fetchLoop valid getTop useAI ai target maxFetchIterations initFetchState).allValid.take
        target := rfl

/-- C5 (counterexample): an idealised inexhaustible, always-yielding,
prefix-consistent source satisfying everything the claim assumes (each request
for the top `n` names returns `n` distinct names, all passing the acceptance
predicate) together with `T = 250001` refutes the claim: the loop is capped at
`max_iterations = 50` iterations of at most 5000 fetched names each, so at
most 250000 names can ever be accepted and the call returns fewer than `T`
names. -/
theorem c5_quota_law_counterexample :
    (∀ n, (streamNames n).length = n) ∧
    (∀ n, (streamNames n).Nodup) ∧
    (∀ m n, m ≤ n → streamNames m = (streamNames n).take m) ∧
    (∀ n x, x ∈ streamNames n → acceptAll x = true) ∧
    (fetch_until_sufficient_gen acceptAll streamNames false id 250001).1.length ≠ 250001 := by
  refine ⟨streamNames_length, streamNames_nodup, streamNames_pref, fun _ _ _ => rfl, ?_⟩
  have hlb := fetchLoop_len_le acceptAll streamNames id 250001
    (fun n => (streamNames_length n).le) maxFetchIterations initFetchState
  have hle : (fetch_until_sufficient_gen acceptAll streamNames false id 250001).1.length ≤
      250000 := by
    rw [fetch_gen_fst, List.length_take]
    have h0 : initFetchState.allValid.length = 0 := rfl
    rw [h0] at hlb
    have : maxFetchIterations * 5000 = 250000 := rfl
    omega
  omega

/-- C5 (amended): for every target `1 ≤ T ≤ 250000` — exactly the range
reachable within the `max_iterations = 50` cap — and every inexhaustible,
duplicate-free, prefix-consistent, always-yielding source, the sampler returns
exactly `T` distinct names.  Reachability is sharp: for an all-valid source
the yield-rate estimate stays in `(0, 1]`, so `estimate_to_fetch ≥ needed` and
each iteration gains `max(200, min(estimate, 5000)) ≥ min(needed, 5000)` new
accepted names; the counterexample shows `T = 250001` is the first unreachable
target. -/
theorem c5_quota_law_amended (valid : String → Bool) (getTop : Nat → List String)
    (ai : List String → List String) (target : Nat)
    (h1 : 1 ≤ target) (h2 : target ≤ 250000)
    (hlen : ∀ n, (getTop n).length = n)
    (hnodup : ∀ n, (getTop n).Nodup)
    (hpref : ∀ m n, m ≤ n → getTop m = (getTop n).take m)
    (hvalid : ∀ n x, x ∈ getTop n → valid x = true) :
    (fetch_until_sufficient_gen valid getTop false ai target).1.length = target ∧
    (fetch_until_sufficient_gen valid getTop false ai target).1.Nodup := by
  have hreach := fetchLoop_quota valid getTop ai target hlen hnodup hpref hvalid
    maxFetchIterations initFetchState
    (fetchInv_init valid getTop (fun n => (hlen n).le))
    init_yield_bounds.1 init_yield_bounds.2
    (by
      have h0 : initFetchState.allValid.length = 0 := rfl
      rw [h0]
      have h5 : 5000 * maxFetchIterations = 250000 := rfl
      omega)
  constructor
  · rw [fetch_gen_fst, List.length_take]
    omega
  · rw [fetch_gen_fst]
    exact List.Nodup.sublist (List.take_sublist _ _)
      (fetchLoop_nodup valid getTop false ai target maxFetchIterations initFetchState
        List.nodup_nil)

/-- C6: for every source, classifier configuration and target count, the
name list returned by `fetch_names_until_sufficient` has at most
`target_count` entries and contains no duplicate strings (case-sensitive
`String` equality). -/
theorem c6_no_duplicates_within_target (getTop : Nat → List String) (useAI : Bool)
    (ai : List String → List String) (target : Nat) :
    (fetch_names_until_sufficient getTop useAI ai target).1.length ≤ target ∧
    (fetch_names_until_sufficient getTop useAI ai target).1.Nodup := by
  constructor
  · rw [show (fetch_names_until_sufficient getTop useAI ai target).1 =
        (fetchLoop is_valid_first_name getTop useAI ai target maxFetchIterations
          initFetchState).allValid.take target from rfl, List.length_take]
    omega
  · rw [show (fetch_names_until_sufficient getTop useAI ai target).1 =
        (fetchLoop is_valid_first_name getTop useAI ai target maxFetchIterations
          initFetchState).allValid.take target from rfl]
    exact List.Nodup.sublist (List.take_sublist _ _)
      (fetchLoop_nodup is_valid_first_name getTop useAI ai target maxFetchIterations
        initFetchState List.nodup_nil)

theorem errTruthy_eq_false (o : Option ValidationError) : errTruthy o = false := by
  cases o <;> rfl

/-- C2 (refuting evaluation): the candidate "Ab" fails the length check
(check 3, reason `too_short`), yet `validate_all` still performs the authority
lookup — `names_dataset.search` is invoked (the traced flag is `true`) — and
even returns `None`, because the falsy `ValidationError` makes every internal
`if error:` guard dead.  This contradicts the fail-fast contract the claim
states, and contradicts the docstring of `validate_all`. -/
theorem c2_failed_precheck_still_invokes_search :
    (validate_length "Ab" 3 20).map ValidationError.reason = some "too_short" ∧
    (validate_allT "Ab" "M" "US" emptySearch 3 20 5000 false).2 = true ∧
    validate_all "Ab" "M" "US" emptySearch 3 20 5000 false = none := by decide

/-- C3 (refuting evaluation): `validate_character_set` does classify
`"محمد"` as `non_latin_script`, but `validate_all("محمد", "F", "US", source)`
returns `None` (accepted) instead of that rejection, because the falsy
`ValidationError` makes the `if char_error:` guard dead; the authority lookup
is even performed for it. -/
theorem c3_non_latin_script_not_rejected_by_validate_all :
    (validate_character_set "محمد" "US").map ValidationError.reason = some "non_latin_script" ∧
    (validate_allT "محمد" "F" "US" emptySearch 3 20 5000 false).2 = true ∧
    validate_all "محمد" "F" "US" emptySearch 3 20 5000 false = none := by decide

/-- C8: for every candidate whose length lies within the inclusive
`[min_length, max_length]` window, `validate_all` with
`skip_length_check=True` returns the same outcome as with
`skip_length_check=False`, all other arguments held equal. -/
theorem c8_skip_length_check_equivalence (name gender country : String)
    (search : String → Option SearchResult) (min_length max_length : Nat) (min_rank : Int)
    (h1 : min_length ≤ name.length) (h2 : name.length ≤ max_length) :
    validate_all name gender country search min_length max_length min_rank true =
      validate_all name gender country search min_length max_length min_rank false := by
  simp [validate_all, validate_allT, errTruthy_eq_false]

/-- C1: `ValidationError.__bool__` returns `False` unconditionally, so in
`DatasetCleaner.clean_country` the branch `if error:` on the result of
`validate_all` never fires: every row that passes the length and
gender pre-checks of the cleaner itself is counted valid and written to the
output file, for every
dataset `search` — even when `validate_all` returned a `ValidationError`. -/
theorem c1_validation_error_falsy_rows_kept
    (e : ValidationError)
    (country : String) (search : String → Option SearchResult)
    (min_length max_length : Nat) (min_rank : Int)
    (stats : CleaningStats) (row : List String)
    (hlen : 3 ≤ row.length)
    (hmin : min_length ≤ (row.getD 0 "").length)
    (hmax : (row.getD 0 "").length ≤ max_length)
    (hgender : row.getD 2 "" = "M" ∨ row.getD 2 "" = "F" ∨
      row.getD 2 "" = "m" ∨ row.getD 2 "" = "f") :
    validationErrorBool e = false ∧
    processRow country search min_length max_length min_rank stats row =
      ({ stats with total_rows := stats.total_rows + 1,
                    valid_rows := stats.valid_rows + 1 }, some row) := by
  refine ⟨rfl, ?_⟩
  rw [processRow]
  rw [if_neg (by omega)]
  rw [if_neg (by
    simp only [Bool.or_eq_true, decide_eq_true_eq]
    omega)]
  rw [if_neg (by
    rcases hgender with h | h | h | h <;> rw [h] <;> decide)]
  rw [if_neg (by rw [errTruthy_eq_false]; simp)]

theorem bumpReason_total (r : String) :
    ∀ l : List (String × Nat), reasonsTotal (bumpReason l r) = reasonsTotal l + 1 := by
  intro l
  induction l with
  | nil => rfl
  | cons p rest ih =>
    obtain ⟨k, v⟩ := p
    rw [bumpReason]
    by_cases h : k = r
    · rw [if_pos h]
      simp [reasonsTotal]
      omega
    · rw [if_neg h]
      simp only [reasonsTotal, List.map_cons, List.sum_cons] at ih ⊢
      omega

theorem processRow_inv (country : String) (search : String → Option SearchResult)
    (min_length max_length : Nat) (min_rank : Int)
    (stats : CleaningStats) (row : List String) (h : StatsInv stats) :
    StatsInv (processRow country search min_length max_length min_rank stats row).1 := by
  obtain ⟨h1, h2⟩ := h
  simp only [processRow]
  split_ifs <;>
    simp only [StatsInv, add_filtered, bumpReason_total] <;>
    exact ⟨by omega, by omega⟩

theorem cleanFold_inv (country : String) (search : String → Option SearchResult)
    (min_length max_length : Nat) (min_rank : Int) :
    ∀ (rows : List (List String)) (acc : CleaningStats × List (List String)),
      StatsInv acc.1 →
      StatsInv (rows.foldl
        (fun acc row =>
          let step := processRow country search min_length max_length min_rank acc.1 row
          (step.1, match step.2 with | some r => acc.2 ++ [r] | none => acc.2)) acc).1 := by
  intro rows
  induction rows with
  | nil => intro acc h; simpa using h
  | cons row rest ih =>
    intro acc h
    rw [List.foldl_cons]
    exact ih _ (processRow_inv country search min_length max_length min_rank acc.1 row h)

/-- C9: throughout the row loop of `clean_country` and at its end, the
statistics satisfy `total_rows = valid_rows + filtered_rows`, and the
per-reason counts in `filtered_reasons` sum to `filtered_rows`: every observed
row is counted exactly once.  (The state after any number of processed rows is
the fold over that prefix of rows, so quantifying over the row list covers
every intermediate state.) -/
theorem c9_stats_partition (country : String) (search : String → Option SearchResult)
    (min_length max_length : Nat) (min_rank : Int) (rows : List (List String)) :
    (clean_country_rows country search min_length max_length min_rank rows).1.total_rows =
      (clean_country_rows country search min_length max_length min_rank rows).1.valid_rows +
      (clean_country_rows country search min_length max_length min_rank rows).1.filtered_rows ∧
    reasonsTotal
        (clean_country_rows country search min_length max_length min_rank rows).1.filtered_reasons =
      (clean_country_rows country search min_length max_length min_rank rows).1.filtered_rows := by
  exact cleanFold_inv country search min_length max_length min_rank rows
    (initialCleaningStats, []) ⟨rfl, rfl⟩

/-- C7 (counterexample): "Renee" ends in the doubled vowel "ee" and is not
in any exception list, yet `is_valid_first_name "Renee" = true` — the code
deliberately keeps "ee" and "oo" doublings and only rejects a final "aa" and
any "ii"/"uu". -/
theorem c7_double_vowel_counterexample :
    endsWithStr "ee" (pyLower (pyStrip "Renee")) = true ∧
    pyLower (pyStrip "Renee") ≠ "hawaii" ∧
    is_valid_first_name "Renee" = true := by decide

/-- C7 (amended): the local predicate rejects every name whose stripped
lowercase form ends in "aa", or contains "ii" (except the fixed known-good
exception "hawaii") or "uu"; doubled "ee"/"oo" are allowed. -/
theorem c7_double_vowel_amended (s : String)
    (h : endsWithStr "aa" (pyLower (pyStrip s)) = true ∨
      (containsSub "ii" (pyLower (pyStrip s)) = true ∧ pyLower (pyStrip s) ≠ "hawaii") ∨
      containsSub "uu" (pyLower (pyStrip s)) = true) :
    is_valid_first_name s = false := by
  have hite : ∀ c e : Bool, (if c = true then false else e) = (!c && e) := by
    intro c e
    cases c <;> simp
  rcases h with h | ⟨h, hneq⟩ | h
  · have h2 : endsWithList ['a', 'a'] (pyLower (pyStrip s)).data = true := h
    simp only [is_valid_first_name, hite]
    simp [h2]
  · have h2 : containsList ['i', 'i'] (pyLower (pyStrip s)).data = true := h
    simp only [is_valid_first_name, hite]
    simp [h2, hneq]
  · have h2 : containsList ['u', 'u'] (pyLower (pyStrip s)).data = true := h
    simp only [is_valid_first_name, hite]
    simp [h2]

/-- C10: the concrete values of the local predicate:
`is_valid_first_name "A.J." = false`, `"Jean-Claude" ↦ true`,
`"Jean--Claude" ↦ false`, `"" ↦ false`, `"Al" ↦ false`. -/
theorem c10_local_predicate_concrete_values :
    is_valid_first_name "A.J." = false ∧
    is_valid_first_name "Jean-Claude" = true ∧
    is_valid_first_name "Jean--Claude" = false ∧
    is_valid_first_name "" = false ∧
    is_valid_first_name "Al" = false := by decide

/-- C4 (counterexample): with the two-name duplicate-free source
`["John", "Mary"]`, no classifier, and target 1, the loop fetches both names
and accepts both, but the returned tuple is `(["John"], 2, 0, 0)` — truncated
to the target — so `fetched = 2 ≠ 1 + 0 + 0 = returned + locally-rejected +
externally-rejected`.  The overshoot name is discarded without being counted
anywhere. -/
theorem c4_accounting_identity_counterexample :
    fetch_names_until_sufficient (takeSource ["John", "Mary"]) false id 1 =
      (["John"], 2, 0, 0) ∧
    ((fetch_names_until_sufficient (takeSource ["John", "Mary"]) false id 1).2.1 : Int) ≠
      ((fetch_names_until_sufficient (takeSource ["John", "Mary"]) false id 1).1.length : Int) +
      (fetch_names_until_sufficient (takeSource ["John", "Mary"]) false id 1).2.2.1 +
      (fetch_names_until_sufficient (takeSource ["John", "Mary"]) false id 1).2.2.2 := by
  constructor
  · decide
  · decide

theorem c4_accounting_identity_amended_witness :
    ((fetchLoop is_valid_first_name (takeSource ["John", "Mary"]) false id 1 1
        initFetchState).totalFetched : Int) =
      (fetchLoop is_valid_first_name (takeSource ["John", "Mary"]) false id 1 1
        initFetchState).allValid.length +
      (fetchLoop is_valid_first_name (takeSource ["John", "Mary"]) false id 1 1
        initFetchState).regexFiltered ∧
    (fetchLoop is_valid_first_name (takeSource ["John", "Mary"]) false id 1 1
      initFetchState).aiFiltered = 0 ∧
    fetch_names_until_sufficient (takeSource ["John", "Mary"]) false id 1 =
      ((fetchLoop is_valid_first_name (takeSource ["John", "Mary"]) false id 1
          maxFetchIterations initFetchState).allValid.take 1,
       (fetchLoop is_valid_first_name (takeSource ["John", "Mary"]) false id 1
          maxFetchIterations initFetchState).totalFetched,
       (fetchLoop is_valid_first_name (takeSource ["John", "Mary"]) false id 1
          maxFetchIterations initFetchState).regexFiltered,
       (fetchLoop is_valid_first_name (takeSource ["John", "Mary"]) false id 1
          maxFetchIterations initFetchState).aiFiltered) :=
  c4_accounting_identity_amended ["John", "Mary"] (by decide) id 1 1

theorem c5_quota_law_amended_witness :
    (fetch_until_sufficient_gen acceptAll streamNames false id 3).1.length = 3 ∧
    (fetch_until_sufficient_gen acceptAll streamNames false id 3).1.Nodup :=
  c5_quota_law_amended acceptAll streamNames id 3 (by norm_num) (by norm_num)
    streamNames_length streamNames_nodup streamNames_pref (fun _ _ _ => rfl)

theorem c7_double_vowel_amended_witness :
    (endsWithStr "aa" (pyLower (pyStrip "Evaa")) = true ∨
      (containsSub "ii" (pyLower (pyStrip "Evaa")) = true ∧
        pyLower (pyStrip "Evaa") ≠ "hawaii") ∨
      containsSub "uu" (pyLower (pyStrip "Evaa")) = true) ∧
    is_valid_first_name "Evaa" = false :=
  ⟨Or.inl (by decide), c7_double_vowel_amended "Evaa" (Or.inl (by decide))⟩

theorem c8_skip_length_check_equivalence_witness :
    3 ≤ ("John" : String).length ∧ ("John" : String).length ≤ 20 ∧
    validate_all "John" "M" "US" emptySearch 3 20 5000 true =
      validate_all "John" "M" "US" emptySearch 3 20 5000 false :=
  ⟨by decide, by decide,
    c8_skip_length_check_equivalence "John" "M" "US" emptySearch 3 20 5000
      (by decide) (by decide)⟩

theorem c1_validation_error_falsy_rows_kept_witness :
    validationErrorBool ⟨"too_short", ""⟩ = false ∧
    processRow "US" emptySearch 3 20 5000 initialCleaningStats ["John", "Doe", "M", "US"] =
      (⟨1, 1, 0, []⟩, some ["John", "Doe", "M", "US"]) :=
  c1_validation_error_falsy_rows_kept ⟨"too_short", ""⟩ "US" emptySearch 3 20 5000
    initialCleaningStats ["John", "Doe", "M", "US"]
    (by decide) (by decide) (by decide) (Or.inl (by decide))
